import Mathlib

/-!
Verification of the merge-and-score pipeline of the sharp-golf backend
(`src/main.py`).  Python floats are modelled by exact rationals (`ℚ`),
Python `round` by round-half-to-even (`pyRound`), JSON documents by
structures whose possibly-missing fields are `Option`s, Python dicts by
association lists with dict insertion semantics (`dictInsert`), and
Python truthiness of numbers (`x or d`) by `pyOr`.  Fallible upstream
fetches are modelled as `Except` values consumed by `safeFetch`.
-/

namespace SharpGolf

/-- Python `round(q)`: round half to even, to an integer. -/
def pyRound (q : ℚ) : ℤ :=
  if q - ⌊q⌋ < 1/2 then ⌊q⌋
  else if 1/2 < q - ⌊q⌋ then ⌊q⌋ + 1
  else if ⌊q⌋ % 2 = 0 then ⌊q⌋ else ⌊q⌋ + 1

/-- Python `round(q, n)`: round half to even at `n` decimal places. -/
def pyRoundN (n : ℕ) (q : ℚ) : ℚ :=
  (pyRound (q * 10 ^ n) : ℚ) / 10 ^ n

/-- Python `round(q, 1)`. -/
def pyRound1 (q : ℚ) : ℚ := pyRoundN 1 q

/-- Python `a or d` for a numeric `a : Option ℚ` (`None` and `0` are falsy). -/
def pyOr (o : Option ℚ) (d : ℚ) : ℚ :=
  match o with
  | some v => if v = 0 then d else v
  | none => d

/-- Python `a or b` for strings (`""` is falsy). -/
def pyOrStr (a b : String) : String := if a = "" then b else a

/-- `dec_to_american` (src/main.py lines 228-233): convert decimal odds to an
American odds string; `None` when `dec` is falsy or `dec <= 1`. -/
def dec_to_american (dec : ℚ) : Option String :=
  if dec = 0 ∨ dec ≤ 1 then none
  else if 2 ≤ dec then some ("+" ++ toString (pyRound ((dec - 1) * 100)))
  else some ("-" ++ toString (pyRound (100 / (dec - 1))))

/-- Python `min(vals)` for a nonempty list (the `[]` case is never reached in
the pipeline; Python would raise there). -/
def listMin : List ℚ → ℚ
  | [] => 0
  | x :: xs => xs.foldl min x

/-- Python `max(vals)` for a nonempty list. -/
def listMax : List ℚ → ℚ
  | [] => 0
  | x :: xs => xs.foldl max x

/-- `normalize` (src/main.py lines 330-334): min-max rescale a factor list
onto 0-100; a flat list maps to all `50.0`. -/
def normalize (vals : List ℚ) : List ℚ :=
  if listMax vals = listMin vals then List.replicate vals.length 50
  else vals.map (fun v => (v - listMin vals) / (listMax vals - listMin vals) * 100)

/-- Per-element form of `normalize`: the value `v` of one candidate rescaled
relative to the factor values `vals` of the whole candidate set. -/
def normVal (vals : List ℚ) (v : ℚ) : ℚ :=
  if listMax vals = listMin vals then 50
  else (v - listMin vals) / (listMax vals - listMin vals) * 100

/-- Confidence tier from the Floor Score (src/main.py lines 364-371),
thresholds evaluated top-down, first match wins. -/
def confidence (fs : ℚ) : String :=
  if 85 ≤ fs then "LOCK"
  else if 75 ≤ fs then "HIGH"
  else if 65 ≤ fs then "SOLID"
  else "LEAN"

/-- `SPORTSBOOKS` (src/main.py lines 221-225). -/
def SPORTSBOOKS : List String :=
  ["draftkings", "fanduel", "betmgm", "caesars", "pinnacle",
   "bet365", "bovada", "circa", "betway", "williamhill", "betonline",
   "betcris", "skybet", "sportsbook", "unibet", "corale", "pointsbet"]

/-! ### Association lists with Python dict semantics -/

/-- First value stored under key `k`, Python `d.get(k)`. -/
def dictGet {α : Type} : List (ℤ × α) → ℤ → Option α
  | [], _ => none
  | (k, v) :: rest, key => if k = key then some v else dictGet rest key

/-- Python `d[k] = v`: replace in place if the key exists, else append.
(Keys are never duplicated, since every lookup is built from `[]` by
`dictInsert` alone.) -/
def dictInsert {α : Type} : List (ℤ × α) → ℤ → α → List (ℤ × α)
  | [], key, v => [(key, v)]
  | (k, v0) :: rest, key, v =>
    if k = key then (key, v) :: rest else (k, v0) :: dictInsert rest key v

/-- String-keyed lookup (per-entry sportsbook fields). -/
def dictGetStr {α : Type} : List (String × α) → String → Option α
  | [], _ => none
  | (k, v) :: rest, key => if k = key then some v else dictGetStr rest key

/-! ### Upstream documents, as read by the pipeline -/

/-- One entry of the predictions list (fields read at src/main.py 259-263). -/
structure PredEntry where
  dg_id : Option ℤ
  top_20 : Option ℚ
deriving DecidableEq

/-- The predictions document (`preds/pre-tournament`).  A missing or
non-list field is modelled as `none`. -/
structure PredictionsDoc where
  event_name : Option String
  baseline_history_fit : Option (List PredEntry)
  baseline : Option (List PredEntry)
deriving DecidableEq

def emptyPredictionsDoc : PredictionsDoc :=
  { event_name := none, baseline_history_fit := none, baseline := none }

/-- One entry of the outrights odds list (fields read at src/main.py
270-292): a player id, a name, and per-sportsbook decimal odds. -/
structure OddsEntry where
  dg_id : Option ℤ
  player_name : Option String
  books : List (String × ℚ)
deriving DecidableEq

/-- The outrights document (`betting-tools/outrights`). -/
structure OddsDoc where
  event_name : Option String
  odds : Option (List OddsEntry)
deriving DecidableEq

def emptyOddsDoc : OddsDoc := { event_name := none, odds := none }

/-- One entry of the decompositions list (fields read at src/main.py
300-323). -/
structure DecompEntry where
  dg_id : Option ℤ
  player_name : Option String
  total_fit_adjustment : Option ℚ
  total_course_history_adjustment : Option ℚ
  cf_short_comp : Option ℚ
  cf_approach_comp : Option ℚ
  final_pred : Option ℚ
  baseline_pred : Option ℚ
  std_deviation : Option ℚ
deriving DecidableEq

/-- The decompositions document (`preds/player-decompositions`). -/
structure DecompsDoc where
  players : Option (List DecompEntry)
deriving DecidableEq

def emptyDecompsDoc : DecompsDoc := { players := none }

/-! ### Indexers (src/main.py steps 1-3) -/

/-- Step of the predictions loop (src/main.py 259-263). -/
def predStep (acc : List (ℤ × ℚ)) (p : PredEntry) : List (ℤ × ℚ) :=
  match p.dg_id with
  | some id =>
    let t20 := p.top_20.getD 0
    if id ≠ 0 ∧ t20 ≠ 0 ∧ 0 < t20 then dictInsert acc id (1 / t20) else acc
  | none => acc

/-- Predictions lookup: dg_id -> top-20 probability (src/main.py 254-263). -/
def predLookupOf (d : PredictionsDoc) : List (ℤ × ℚ) :=
  let pred_list := match d.baseline_history_fit with
    | some l => l
    | none => d.baseline.getD []
  pred_list.foldl predStep []

/-- Running state of the sportsbook scan (src/main.py 274-285). -/
structure ScanState where
  best_dec : ℚ
  best_book : String
  all_odds : List (String × String)
deriving DecidableEq

/-- One sportsbook probe of the scan loop (src/main.py 277-285). -/
def scanStep (p : OddsEntry) (st : ScanState) (book : String) : ScanState :=
  match dictGetStr p.books book with
  | some val =>
    if val ≠ 0 ∧ 1 < val then
      let st1 := match dec_to_american val with
        | some am => { st with all_odds := st.all_odds ++ [(book, am)] }
        | none => st
      if st.best_dec < val then { st1 with best_dec := val, best_book := book }
      else st1
    else st
  | none => st

/-- Scan the fixed ordered sportsbook list for one odds entry. -/
def scanBooks (p : OddsEntry) : ScanState :=
  SPORTSBOOKS.foldl (scanStep p) { best_dec := 0, best_book := "", all_odds := [] }

/-- Value stored in the odds lookup (src/main.py 287-293). -/
structure OddsInfo where
  best_dec : ℚ
  best_american : Option String
  best_book : String
  all_odds : List (String × String)
  player_name : String
deriving DecidableEq

/-- Step of the outrights loop (src/main.py 270-293). -/
def oddsStep (acc : List (ℤ × OddsInfo)) (p : OddsEntry) : List (ℤ × OddsInfo) :=
  match p.dg_id with
  | some id =>
    if id = 0 then acc
    else
      let st := scanBooks p
      if 0 < st.best_dec then
        dictInsert acc id
          { best_dec := st.best_dec
            best_american := dec_to_american st.best_dec
            best_book := st.best_book
            all_odds := st.all_odds
            player_name := p.player_name.getD "" }
      else acc
  | none => acc

/-- Outrights lookup: dg_id -> best sportsbook odds (src/main.py 265-293). -/
def oddsLookupOf (d : OddsDoc) : List (ℤ × OddsInfo) :=
  (d.odds.getD []).foldl oddsStep []

/-- Step of the decompositions loop (src/main.py 300-303). -/
def decompStep (acc : List (ℤ × DecompEntry)) (p : DecompEntry) : List (ℤ × DecompEntry) :=
  match p.dg_id with
  | some id => if id ≠ 0 then dictInsert acc id p else acc
  | none => acc

/-- Decompositions lookup: dg_id -> skill data (src/main.py 295-303). -/
def decompsLookupOf (d : DecompsDoc) : List (ℤ × DecompEntry) :=
  (d.players.getD []).foldl decompStep []

/-! ### Merge and filter (src/main.py step 4) -/

/-- The merged candidate record (src/main.py 311-324). -/
structure Candidate where
  dg_id : ℤ
  player_name : String
  dg_top20_prob : ℚ
  best_odds : Option String
  best_odds_dec : ℚ
  best_book : String
  all_odds : List (String × String)
  course_fit : ℚ
  sg_short_game : ℚ
  sg_approach : ℚ
  sg_total_predicted : ℚ
  std_deviation : ℚ
deriving DecidableEq

/-- Build one candidate from the three lookups (src/main.py 310-324).
`x or y` on possibly-missing numeric fields is Python truthiness. -/
def mkCandidate (pred_lookup : List (ℤ × ℚ)) (decomps_lookup : List (ℤ × DecompEntry))
    (dg_id : ℤ) (odds : OddsInfo) : Candidate :=
  let decomp := dictGet decomps_lookup dg_id
  { dg_id := dg_id
    player_name := odds.player_name
    dg_top20_prob := (dictGet pred_lookup dg_id).getD 0
    best_odds := odds.best_american
    best_odds_dec := odds.best_dec
    best_book := odds.best_book
    all_odds := odds.all_odds
    course_fit := pyOr (decomp.bind (fun d => d.total_fit_adjustment)) 0
      + pyOr (decomp.bind (fun d => d.total_course_history_adjustment)) 0
    sg_short_game := pyOr (decomp.bind (fun d => d.cf_short_comp)) 0
    sg_approach := pyOr (decomp.bind (fun d => d.cf_approach_comp)) 0
    sg_total_predicted := pyOr (decomp.bind (fun d => d.final_pred))
      (pyOr (decomp.bind (fun d => d.baseline_pred)) 0)
    std_deviation := pyOr (decomp.bind (fun d => d.std_deviation)) 3 }

/-- Merge loop over the odds lookup, filtering by the odds band
(src/main.py 306-324): skip when `best_dec < 1.5 or best_dec > 6.0`. -/
def mergedOf (pred_lookup : List (ℤ × ℚ)) (decomps_lookup : List (ℤ × DecompEntry)) :
    List (ℤ × OddsInfo) → List Candidate
  | [] => []
  | (dg_id, odds) :: rest =>
    if odds.best_dec < 1.5 ∨ 6.0 < odds.best_dec then
      mergedOf pred_lookup decomps_lookup rest
    else
      mkCandidate pred_lookup decomps_lookup dg_id odds ::
        mergedOf pred_lookup decomps_lookup rest

/-! ### Scoring (src/main.py steps 5-6) -/

/-- The six normalized factors of one pick, rounded to one decimal
(src/main.py 346-353). -/
structure Factors where
  model : ℚ
  course : ℚ
  short_game : ℚ
  approach : ℚ
  form : ℚ
  overall : ℚ
deriving DecidableEq

/-- Factors of candidate `r` relative to the whole candidate set `merged`
(src/main.py 336-341 and 346-353): min-max normalization over the set,
then one-decimal rounding. -/
def factorsOf (merged : List Candidate) (r : Candidate) : Factors :=
  { model := pyRound1 (normVal (merged.map (fun c => c.dg_top20_prob)) r.dg_top20_prob)
    course := pyRound1 (normVal (merged.map (fun c => c.course_fit)) r.course_fit)
    short_game := pyRound1 (normVal (merged.map (fun c => c.sg_short_game)) r.sg_short_game)
    approach := pyRound1 (normVal (merged.map (fun c => c.sg_approach)) r.sg_approach)
    form := pyRound1 (normVal
      (merged.map (fun c => c.sg_total_predicted / max c.std_deviation 0.5))
      (r.sg_total_predicted / max r.std_deviation 0.5))
    overall := pyRound1 (normVal (merged.map (fun c => c.sg_total_predicted)) r.sg_total_predicted) }

/-- Floor Score: the fixed-weight composite (src/main.py 356-363). -/
def floorScoreOf (f : Factors) : ℚ :=
  f.model * 0.269 + f.course * 0.133 + f.short_game * 0.059
    + f.approach * 0.056 + f.form * 0.150 + f.overall * 0.333

/-- The output pick record (src/main.py 373-388). -/
structure Pick where
  player_name : String
  dg_id : ℤ
  floor_score : ℚ
  dg_top20_prob : ℚ
  best_odds : Option String
  best_odds_dec : ℚ
  best_book : String
  all_odds : List (String × String)
  course_fit : ℚ
  sg_short_game : ℚ
  sg_approach : ℚ
  sg_total_predicted : ℚ
  confidence : String
  factors : Factors
deriving DecidableEq

/-- Score one candidate (src/main.py 345-388). -/
def pickOf (merged : List Candidate) (r : Candidate) : Pick :=
  let factors := factorsOf merged r
  let fs := floorScoreOf factors
  { player_name := r.player_name
    dg_id := r.dg_id
    floor_score := pyRound1 fs
    dg_top20_prob := pyRoundN 4 r.dg_top20_prob
    best_odds := r.best_odds
    best_odds_dec := pyRoundN 4 r.best_odds_dec
    best_book := r.best_book
    all_odds := r.all_odds
    course_fit := pyRoundN 4 r.course_fit
    sg_short_game := pyRoundN 4 r.sg_short_game
    sg_approach := pyRoundN 4 r.sg_approach
    sg_total_predicted := pyRoundN 4 r.sg_total_predicted
    confidence := confidence fs
    factors := factors }

/-- The scored pick list, in merge order (src/main.py 344-388). -/
def scoredOf (merged : List Candidate) : List Pick :=
  merged.map (pickOf merged)

/-- `picks.sort(key=floor_score, reverse=True)` (src/main.py 390): CPython
sort is stable, so this is a stable insertion sort by descending
floor score - `a` may precede `b` exactly when `b.floor_score <= a.floor_score`. -/
def sortPicks (l : List Pick) : List Pick :=
  l.insertionSort (fun a b => b.floor_score ≤ a.floor_score)

/-! ### The endpoint (src/main.py 243-391) -/

/-- The response document. -/
structure Top20Response where
  event_name : String
  picks : List Pick
deriving DecidableEq

/-- `get_top20_picks` on the three (already fetched) documents
(src/main.py 252-391). -/
def getTop20Picks (predictions : PredictionsDoc) (outrights : OddsDoc)
    (decomps : DecompsDoc) : Top20Response :=
  let event_name := pyOrStr (outrights.event_name.getD "") (predictions.event_name.getD "")
  let merged := mergedOf (predLookupOf predictions) (decompsLookupOf decomps)
    (oddsLookupOf outrights)
  if merged = [] then { event_name := event_name, picks := [] }
  else { event_name := event_name, picks := (sortPicks (scoredOf merged)).take 30 }

/-- `safe_dg_fetch` (src/main.py 236-240): any fetch failure is absorbed and
replaced with the empty document. -/
def safeFetch {α : Type} (empty : α) : Except String α → α
  | .ok d => d
  | .error _ => empty

/-- The endpoint applied to the three concurrent fetch outcomes
(src/main.py 246-250). -/
def top20PicksEndpoint (pr : Except String PredictionsDoc) (od : Except String OddsDoc)
    (dc : Except String DecompsDoc) : Top20Response :=
  getTop20Picks (safeFetch emptyPredictionsDoc pr) (safeFetch emptyOddsDoc od)
    (safeFetch emptyDecompsDoc dc)

/-- Modelled from the spec: the total-predicted factor as §4.5 words it -
"the skill engine's final prediction if present, else its baseline
prediction, else 0" - for comparison with the `or`-chain the code uses. -/
def sgTotalPredictedSpec (d : DecompEntry) : ℚ :=
  match d.final_pred with
  | some v => v
  | none => d.baseline_pred.getD 0

/-! ### Concrete fixtures used by witnesses and counterexamples -/

/-- An odds-lookup value with a given best decimal odds. -/
def oddsInfoBand (d : ℚ) : OddsInfo :=
  { best_dec := d
    best_american := dec_to_american d
    best_book := "draftkings"
    all_odds := []
    player_name := "A" }

/-- A two-candidate outrights document. -/
def oddsDocA : OddsDoc :=
  { event_name := some "Test Open"
    odds := some
      [ { dg_id := some 1, player_name := some "A", books := [("draftkings", 2)] }
      , { dg_id := some 2, player_name := some "B", books := [("draftkings", 3)] } ] }

/-- The odds-lookup value produced for the first entry of `oddsDocA`. -/
def oddsInfoA : OddsInfo :=
  { best_dec := 2
    best_american := some "+100"
    best_book := "draftkings"
    all_odds := [("draftkings", "+100")]
    player_name := "A" }

/-- One of 31 identical admissible odds entries. -/
def wideEntry (i : ℤ) : OddsEntry :=
  { dg_id := some i, player_name := some "P", books := [("draftkings", 2)] }

/-- An outrights document with 31 admissible candidates (ids 1-31). -/
def oddsDocWide : OddsDoc :=
  { event_name := none
    odds := some
      [ wideEntry 1, wideEntry 2, wideEntry 3, wideEntry 4, wideEntry 5, wideEntry 6,
        wideEntry 7, wideEntry 8, wideEntry 9, wideEntry 10, wideEntry 11, wideEntry 12,
        wideEntry 13, wideEntry 14, wideEntry 15, wideEntry 16, wideEntry 17, wideEntry 18,
        wideEntry 19, wideEntry 20, wideEntry 21, wideEntry 22, wideEntry 23, wideEntry 24,
        wideEntry 25, wideEntry 26, wideEntry 27, wideEntry 28, wideEntry 29, wideEntry 30,
        wideEntry 31 ] }

/-- The odds-lookup value produced for each entry of `oddsDocWide`. -/
def oddsInfoWide : OddsInfo :=
  { best_dec := 2
    best_american := some "+100"
    best_book := "draftkings"
    all_odds := [("draftkings", "+100")]
    player_name := "P" }

/-- A skill record whose final prediction is present but zero while the
baseline prediction is nonzero. -/
def decompEntryCE : DecompEntry :=
  { dg_id := some 1
    player_name := none
    total_fit_adjustment := none
    total_course_history_adjustment := none
    cf_short_comp := none
    cf_approach_comp := none
    final_pred := some 0
    baseline_pred := some (1/2)
    std_deviation := none }

/-! ### Helper lemmas: list minimum and maximum -/

theorem foldl_min_le_init (l : List ℚ) (a : ℚ) : l.foldl min a ≤ a := by
  induction l generalizing a with
  | nil => exact le_refl a
  | cons x xs ih =>
    simp only [List.foldl_cons]
    exact le_trans (ih (min a x)) (min_le_left a x)

theorem foldl_min_le_of_mem {l : List ℚ} {v : ℚ} (a : ℚ) (h : v ∈ l) : l.foldl min a ≤ v := by
  induction l generalizing a with
  | nil => cases h
  | cons x xs ih =>
    simp only [List.foldl_cons]
    rcases List.mem_cons.mp h with rfl | hv
    · exact le_trans (foldl_min_le_init xs (min a v)) (min_le_right a v)
    · exact ih (min a x) hv

theorem init_le_foldl_max (l : List ℚ) (a : ℚ) : a ≤ l.foldl max a := by
  induction l generalizing a with
  | nil => exact le_refl a
  | cons x xs ih =>
    simp only [List.foldl_cons]
    exact le_trans (le_max_left a x) (ih (max a x))

theorem le_foldl_max_of_mem {l : List ℚ} {v : ℚ} (a : ℚ) (h : v ∈ l) : v ≤ l.foldl max a := by
  induction l generalizing a with
  | nil => cases h
  | cons x xs ih =>
    simp only [List.foldl_cons]
    rcases List.mem_cons.mp h with rfl | hv
    · exact le_trans (le_max_right a v) (init_le_foldl_max xs (max a v))
    · exact ih (max a x) hv

theorem listMin_le_of_mem {l : List ℚ} {v : ℚ} (h : v ∈ l) : listMin l ≤ v := by
  cases l with
  | nil => cases h
  | cons x xs =>
    simp only [listMin]
    rcases List.mem_cons.mp h with rfl | hv
    · exact foldl_min_le_init xs v
    · exact foldl_min_le_of_mem x hv

theorem le_listMax_of_mem {l : List ℚ} {v : ℚ} (h : v ∈ l) : v ≤ listMax l := by
  cases l with
  | nil => cases h
  | cons x xs =>
    simp only [listMax]
    rcases List.mem_cons.mp h with rfl | hv
    · exact init_le_foldl_max xs v
    · exact le_foldl_max_of_mem x hv

theorem foldl_min_mem (l : List ℚ) (a : ℚ) : l.foldl min a = a ∨ l.foldl min a ∈ l := by
  induction l generalizing a with
  | nil => exact Or.inl rfl
  | cons x xs ih =>
    simp only [List.foldl_cons]
    rcases ih (min a x) with h | h
    · rcases min_choice a x with hm | hm
      · exact Or.inl (by rw [h, hm])
      · exact Or.inr (by rw [h, hm]; exact List.mem_cons_self x xs)
    · exact Or.inr (List.mem_cons_of_mem x h)

theorem foldl_max_mem (l : List ℚ) (a : ℚ) : l.foldl max a = a ∨ l.foldl max a ∈ l := by
  induction l generalizing a with
  | nil => exact Or.inl rfl
  | cons x xs ih =>
    simp only [List.foldl_cons]
    rcases ih (max a x) with h | h
    · rcases max_choice a x with hm | hm
      · exact Or.inl (by rw [h, hm])
      · exact Or.inr (by rw [h, hm]; exact List.mem_cons_self x xs)
    · exact Or.inr (List.mem_cons_of_mem x h)

theorem listMin_mem (x : ℚ) (xs : List ℚ) : listMin (x :: xs) ∈ x :: xs := by
  simp only [listMin]
  rcases foldl_min_mem xs x with h | h
  · rw [h]; exact List.mem_cons_self x xs
  · exact List.mem_cons_of_mem x h

theorem listMax_mem (x : ℚ) (xs : List ℚ) : listMax (x :: xs) ∈ x :: xs := by
  simp only [listMax]
  rcases foldl_max_mem xs x with h | h
  · rw [h]; exact List.mem_cons_self x xs
  · exact List.mem_cons_of_mem x h

/-! ### Helper lemmas: normalization -/

theorem normalize_eq_map (vals : List ℚ) : normalize vals = vals.map (normVal vals) := by
  unfold normalize normVal
  split_ifs with h
  · simp [h, List.map_const']
  · rfl

theorem normVal_bounds {vals : List ℚ} {v : ℚ} (hv : v ∈ vals) :
    0 ≤ normVal vals v ∧ normVal vals v ≤ 100 := by
  unfold normVal
  split_ifs with h
  · norm_num
  · have hmn : listMin vals ≤ v := listMin_le_of_mem hv
    have hmx : v ≤ listMax vals := le_listMax_of_mem hv
    have hlt : listMin vals < listMax vals :=
      lt_of_le_of_ne (le_trans hmn hmx) (fun hEq => h hEq.symm)
    have hpos : 0 < listMax vals - listMin vals := by linarith
    constructor
    · have h0 : 0 ≤ (v - listMin vals) / (listMax vals - listMin vals) :=
        div_nonneg (by linarith) (le_of_lt hpos)
      linarith
    · have h1 : (v - listMin vals) / (listMax vals - listMin vals) ≤ 1 := by
        rw [div_le_one hpos]; linarith
      linarith

/-! ### Helper lemmas: Python rounding -/

theorem pyRound_nonneg {q : ℚ} (hq : 0 ≤ q) : 0 ≤ pyRound q := by
  have h0 : (0 : ℤ) ≤ ⌊q⌋ := Int.floor_nonneg.mpr hq
  unfold pyRound
  split_ifs <;> omega

theorem pyRound_le {q : ℚ} {B : ℤ} (h : q ≤ B) : pyRound q ≤ B := by
  have hfb : ⌊q⌋ ≤ B := by
    calc ⌊q⌋ ≤ ⌊(B : ℚ)⌋ := Int.floor_le_floor h
    _ = B := Int.floor_intCast B
  have hfl : (⌊q⌋ : ℚ) ≤ q := Int.floor_le q
  have hkey : 1/2 ≤ q - ⌊q⌋ → ⌊q⌋ + 1 ≤ B := by
    intro hr
    rcases lt_or_eq_of_le hfb with hlt | hEq
    · omega
    · exfalso
      have hqB : q - (⌊q⌋ : ℚ) ≤ 0 := by
        have : ((⌊q⌋ : ℤ) : ℚ) = (B : ℚ) := by rw [hEq]
        linarith [this ▸ h]
      linarith
  unfold pyRound
  split_ifs with h1 h2 h3
  · exact hfb
  · exact hkey (le_of_lt h2)
  · exact hfb
  · exact hkey (by linarith)

theorem pyRound1_bounds {q : ℚ} (h0 : 0 ≤ q) (h1 : q ≤ 100) :
    0 ≤ pyRound1 q ∧ pyRound1 q ≤ 100 := by
  have hr0 : (0 : ℤ) ≤ pyRound (q * 10 ^ 1) := pyRound_nonneg (by norm_num; linarith)
  have hr1 : pyRound (q * 10 ^ 1) ≤ (1000 : ℤ) := pyRound_le (by push_cast; linarith)
  unfold pyRound1 pyRoundN
  constructor
  · apply div_nonneg _ (by norm_num)
    exact_mod_cast hr0
  · rw [div_le_iff₀ (by norm_num : (0 : ℚ) < 10 ^ 1)]
    have : ((pyRound (q * 10 ^ 1) : ℤ) : ℚ) ≤ (1000 : ℚ) := by exact_mod_cast hr1
    linarith

theorem pyRoundN_zero (n : ℕ) : pyRoundN n 0 = 0 := by
  unfold pyRoundN pyRound
  norm_num

/-! ### Helper lemmas: the stable descending sort -/

instance : IsTotal Pick (fun a b => b.floor_score ≤ a.floor_score) :=
  ⟨fun a b => le_total b.floor_score a.floor_score⟩

instance : IsTrans Pick (fun a b => b.floor_score ≤ a.floor_score) :=
  ⟨fun _ _ _ hab hbc => le_trans hbc hab⟩

theorem sortPicks_sorted (l : List Pick) :
    List.Sorted (fun a b => b.floor_score ≤ a.floor_score) (sortPicks l) :=
  List.sorted_insertionSort _ l

theorem sortPicks_perm (l : List Pick) : List.Perm (sortPicks l) l :=
  List.perm_insertionSort _ l

theorem filter_orderedInsert_key (k : ℚ) (x : Pick) (l : List Pick) :
    (List.orderedInsert (fun a b => b.floor_score ≤ a.floor_score) x l).filter
        (fun p => decide (p.floor_score = k))
      = if x.floor_score = k
        then x :: l.filter (fun p => decide (p.floor_score = k))
        else l.filter (fun p => decide (p.floor_score = k)) := by
  induction l with
  | nil => simp [List.orderedInsert, List.filter_cons]
  | cons y ys ih =>
    simp only [List.orderedInsert]
    by_cases hxy : y.floor_score ≤ x.floor_score
    · rw [if_pos hxy]
      by_cases hxk : x.floor_score = k
      · simp [List.filter_cons, hxk]
      · simp [List.filter_cons, hxk]
    · rw [if_neg hxy]
      have hyx : x.floor_score < y.floor_score := lt_of_not_le hxy
      by_cases hxk : x.floor_score = k
      · have hyk : ¬ y.floor_score = k := by
          intro hy; rw [hxk] at hyx; rw [hy] at hyx; exact lt_irrefl k hyx
        simp [List.filter_cons, hyk, ih, hxk]
      · by_cases hyk : y.floor_score = k
        · simp [List.filter_cons, hyk, ih, hxk]
        · simp [List.filter_cons, hyk, ih, hxk]

theorem sortPicks_filter_key (k : ℚ) (l : List Pick) :
    (sortPicks l).filter (fun p => decide (p.floor_score = k))
      = l.filter (fun p => decide (p.floor_score = k)) := by
  induction l with
  | nil => rfl
  | cons x xs ih =>
    unfold sortPicks at ih ⊢
    simp only [List.insertionSort]
    rw [filter_orderedInsert_key, ih]
    by_cases hxk : x.floor_score = k
    · simp [List.filter_cons, hxk]
    · simp [List.filter_cons, hxk]

/-! ### Helper lemmas: merge, scoring, output -/

theorem mkCandidate_best_odds_dec (pl : List (ℤ × ℚ)) (dl : List (ℤ × DecompEntry))
    (did : ℤ) (info : OddsInfo) :
    (mkCandidate pl dl did info).best_odds_dec = info.best_dec := rfl

theorem mem_mergedOf_of_mem {pl : List (ℤ × ℚ)} {dl : List (ℤ × DecompEntry)}
    {ol : List (ℤ × OddsInfo)} {did : ℤ} {info : OddsInfo}
    (h : (did, info) ∈ ol) (hband : ¬(info.best_dec < 1.5 ∨ 6.0 < info.best_dec)) :
    mkCandidate pl dl did info ∈ mergedOf pl dl ol := by
  induction ol with
  | nil => cases h
  | cons kv rest ih =>
    obtain ⟨k, i⟩ := kv
    rcases List.mem_cons.mp h with hEq | h2
    · cases hEq
      simp only [mergedOf]
      rw [if_neg hband]
      exact List.mem_cons_self _ _
    · simp only [mergedOf]
      split_ifs with hb
      · exact ih h2
      · exact List.mem_cons_of_mem _ (ih h2)

theorem mem_mergedOf_admissible {pl : List (ℤ × ℚ)} {dl : List (ℤ × DecompEntry)}
    {ol : List (ℤ × OddsInfo)} {c : Candidate} (h : c ∈ mergedOf pl dl ol) :
    1.5 ≤ c.best_odds_dec ∧ c.best_odds_dec ≤ 6.0 := by
  induction ol with
  | nil => cases h
  | cons kv rest ih =>
    obtain ⟨k, i⟩ := kv
    simp only [mergedOf] at h
    split_ifs at h with hb
    · exact ih h
    · push_neg at hb
      rcases List.mem_cons.mp h with rfl | h2
      · exact ⟨by simpa [mkCandidate_best_odds_dec] using hb.1,
          by simpa [mkCandidate_best_odds_dec] using hb.2⟩
      · exact ih h2

theorem pickOf_factors (m : List Candidate) (r : Candidate) :
    (pickOf m r).factors = factorsOf m r := rfl

theorem pickOf_floor_score (m : List Candidate) (r : Candidate) :
    (pickOf m r).floor_score = pyRound1 (floorScoreOf (factorsOf m r)) := rfl

theorem pickOf_confidence (m : List Candidate) (r : Candidate) :
    (pickOf m r).confidence = confidence (floorScoreOf (factorsOf m r)) := rfl

theorem pickOf_dg_id (m : List Candidate) (r : Candidate) :
    (pickOf m r).dg_id = r.dg_id := rfl

/-- Every output pick is the scoring of some merged candidate, relative to
the whole merged set. -/
theorem mem_picks_exists {pd : PredictionsDoc} {od : OddsDoc} {dd : DecompsDoc} {p : Pick}
    (hp : p ∈ (getTop20Picks pd od dd).picks) :
    ∃ r ∈ mergedOf (predLookupOf pd) (decompsLookupOf dd) (oddsLookupOf od),
      p = pickOf (mergedOf (predLookupOf pd) (decompsLookupOf dd) (oddsLookupOf od)) r := by
  simp only [getTop20Picks] at hp
  split_ifs at hp with h
  · simp at hp
  · have h1 : p ∈ sortPicks (scoredOf (mergedOf (predLookupOf pd) (decompsLookupOf dd)
        (oddsLookupOf od))) := List.take_subset 30 _ hp
    have h2 : p ∈ scoredOf (mergedOf (predLookupOf pd) (decompsLookupOf dd)
        (oddsLookupOf od)) := (sortPicks_perm _).mem_iff.mp h1
    unfold scoredOf at h2
    rcases List.mem_map.mp h2 with ⟨r, hr, hpr⟩
    exact ⟨r, hr, hpr.symm⟩

/-- With a nonempty merged set the output is the truncated sorted scoring. -/
theorem picks_eq_of_ne_nil {pd : PredictionsDoc} {od : OddsDoc} {dd : DecompsDoc}
    (h : mergedOf (predLookupOf pd) (decompsLookupOf dd) (oddsLookupOf od) ≠ []) :
    (getTop20Picks pd od dd).picks =
      (sortPicks (scoredOf (mergedOf (predLookupOf pd) (decompsLookupOf dd)
        (oddsLookupOf od)))).take 30 := by
  simp only [getTop20Picks]
  rw [if_neg h]

theorem factorsOf_model_bounds {m : List Candidate} {r : Candidate} (hr : r ∈ m) :
    (0 ≤ (factorsOf m r).model ∧ (factorsOf m r).model ≤ 100) := by
  have hmem : r.dg_top20_prob ∈ m.map (fun c => c.dg_top20_prob) :=
    List.mem_map_of_mem _ hr
  obtain ⟨h0, h1⟩ := normVal_bounds hmem
  exact pyRound1_bounds h0 h1

theorem factorsOf_bounds {m : List Candidate} {r : Candidate} (hr : r ∈ m) :
    (0 ≤ (factorsOf m r).model ∧ (factorsOf m r).model ≤ 100) ∧
    (0 ≤ (factorsOf m r).course ∧ (factorsOf m r).course ≤ 100) ∧
    (0 ≤ (factorsOf m r).short_game ∧ (factorsOf m r).short_game ≤ 100) ∧
    (0 ≤ (factorsOf m r).approach ∧ (factorsOf m r).approach ≤ 100) ∧
    (0 ≤ (factorsOf m r).form ∧ (factorsOf m r).form ≤ 100) ∧
    (0 ≤ (factorsOf m r).overall ∧ (factorsOf m r).overall ≤ 100) := by
  refine ⟨factorsOf_model_bounds hr, ?_, ?_, ?_, ?_, ?_⟩ <;>
  · first
    | exact
        (fun hmem => by
          obtain ⟨h0, h1⟩ := normVal_bounds hmem
          exact pyRound1_bounds h0 h1)
        (List.mem_map_of_mem _ hr)

theorem floorScoreOf_bounds {f : Factors}
    (hm : 0 ≤ f.model ∧ f.model ≤ 100) (hc : 0 ≤ f.course ∧ f.course ≤ 100)
    (hs : 0 ≤ f.short_game ∧ f.short_game ≤ 100) (ha : 0 ≤ f.approach ∧ f.approach ≤ 100)
    (hf : 0 ≤ f.form ∧ f.form ≤ 100) (ho : 0 ≤ f.overall ∧ f.overall ≤ 100) :
    0 ≤ floorScoreOf f ∧ floorScoreOf f ≤ 100 := by
  obtain ⟨hm0, hm1⟩ := hm
  obtain ⟨hc0, hc1⟩ := hc
  obtain ⟨hs0, hs1⟩ := hs
  obtain ⟨ha0, ha1⟩ := ha
  obtain ⟨hf0, hf1⟩ := hf
  obtain ⟨ho0, ho1⟩ := ho
  unfold floorScoreOf
  constructor <;> nlinarith

/-- The list of one rounded factor over the merged set is the rounded
`normalize` output of the corresponding raw factor list. -/
theorem map_pyRound1_normalize (m : List Candidate) (g : Candidate → ℚ) :
    m.map (fun c => pyRound1 (normVal (m.map g) (g c)))
      = (normalize (m.map g)).map pyRound1 := by
  rw [normalize_eq_map, List.map_map, List.map_map]
  rfl

/-! ### Claims -/

/-- Claim C2: for every decimal odds `d`, the conversion yields no result
when `d <= 1`, the string `+round((d-1)*100)` when `d >= 2`, and the string
`-round(100/(d-1))` when `1 < d < 2`; in particular `2.5 -> "+150"` and
`1.5 -> "-200"`. -/
theorem C2_dec_to_american_spec (d : ℚ) :
    (d ≤ 1 → dec_to_american d = none) ∧
    (2 ≤ d → dec_to_american d = some ("+" ++ toString (pyRound ((d - 1) * 100)))) ∧
    (1 < d → d < 2 → dec_to_american d = some ("-" ++ toString (pyRound (100 / (d - 1))))) ∧
    dec_to_american 2.5 = some "+150" ∧
    dec_to_american 1.5 = some "-200" := by
  refine ⟨?_, ?_, ?_, ?_, ?_⟩
  · intro h
    unfold dec_to_american
    rw [if_pos (Or.inr h)]
  · intro h
    unfold dec_to_american
    rw [if_neg (by rintro (rfl | hle) <;> linarith), if_pos h]
  · intro h1 h2
    unfold dec_to_american
    rw [if_neg (by rintro (rfl | hle) <;> linarith),
      if_neg (by intro hc; linarith)]
  · norm_num [dec_to_american, pyRound]
    rfl
  · norm_num [dec_to_american, pyRound]
    rfl

/-- Witness for C2 at concrete inputs from each branch. -/
theorem C2_witness :
    dec_to_american 1 = none ∧
    dec_to_american 3 = some ("+" ++ toString (pyRound ((3 - 1) * 100))) ∧
    dec_to_american (7/4) = some ("-" ++ toString (pyRound (100 / (7/4 - 1)))) :=
  ⟨(C2_dec_to_american_spec 1).1 (by norm_num),
   (C2_dec_to_american_spec 3).2.1 (by norm_num),
   (C2_dec_to_american_spec (7/4)).2.2.1 (by norm_num) (by norm_num)⟩

/-- Claim C3: on a non-empty factor list, `normalize` maps each value `v`
to `(v - min) / (max - min) * 100` (values land in 0-100), `[0, 5, 10]`
to `[0, 50, 100]`, and a flat list to all `50.0`. -/
theorem C3_normalize_minmax (x : ℚ) (xs : List ℚ) :
    (listMax (x :: xs) ≠ listMin (x :: xs) →
      normalize (x :: xs) = (x :: xs).map
        (fun v => (v - listMin (x :: xs)) / (listMax (x :: xs) - listMin (x :: xs)) * 100)) ∧
    ((∀ v ∈ x :: xs, v = x) → normalize (x :: xs) = List.replicate (x :: xs).length 50) ∧
    (∀ y ∈ normalize (x :: xs), 0 ≤ y ∧ y ≤ 100) ∧
    normalize [0, 5, 10] = [0, 50, 100] := by
  refine ⟨?_, ?_, ?_, ?_⟩
  · intro h
    unfold normalize
    rw [if_neg h]
  · intro hall
    have hmx : listMax (x :: xs) = x := hall _ (listMax_mem x xs)
    have hmn : listMin (x :: xs) = x := hall _ (listMin_mem x xs)
    unfold normalize
    rw [if_pos (by rw [hmx, hmn])]
  · intro y hy
    rw [normalize_eq_map] at hy
    rcases List.mem_map.mp hy with ⟨v, hv, rfl⟩
    exact normVal_bounds hv
  · norm_num [normalize, listMin, listMax]

/-- Witness for C3: the generic scaling law at `[0, 5, 10]` and the
degenerate law at the flat list `[7, 7]`. -/
theorem C3_witness :
    normalize [0, 5, 10] = [0, 5, 10].map
      (fun v => (v - listMin [0, 5, 10]) / (listMax [0, 5, 10] - listMin [0, 5, 10]) * 100) ∧
    normalize [7, 7] = List.replicate 2 50 :=
  ⟨(C3_normalize_minmax 0 [5, 10]).1 (by norm_num [listMin, listMax]),
   (C3_normalize_minmax 7 [7]).2.1 (by intro v hv; rcases List.mem_cons.mp hv with rfl | hv2 <;>
      simp_all)⟩

/-- Claim C5: the confidence tier is determined from the Floor Score with
first-match-wins thresholds: `>=85` LOCK, `>=75` HIGH, `>=65` SOLID, else
LEAN; in particular `85.0` LOCK, `84.99` HIGH, `75.0` HIGH, `64.99` LEAN;
and every pick's tier is `confidence` of its Floor Score. -/
theorem C5_confidence_tiers (fs : ℚ) :
    (confidence fs = "LOCK" ↔ 85 ≤ fs) ∧
    (confidence fs = "HIGH" ↔ 75 ≤ fs ∧ fs < 85) ∧
    (confidence fs = "SOLID" ↔ 65 ≤ fs ∧ fs < 75) ∧
    (confidence fs = "LEAN" ↔ fs < 65) ∧
    confidence 85 = "LOCK" ∧ confidence 84.99 = "HIGH" ∧
    confidence 75 = "HIGH" ∧ confidence 64.99 = "LEAN" ∧
    ∀ (m : List Candidate) (r : Candidate),
      (pickOf m r).confidence = confidence (floorScoreOf (factorsOf m r)) := by
  refine ⟨?_, ?_, ?_, ?_, ?_, ?_, ?_, ?_, fun m r => rfl⟩
  · unfold confidence
    split_ifs with h1 h2 h3
    · simp [h1]
    · simp [h1]
    · simp [h1]
    · simp [h1]
  · unfold confidence
    split_ifs with h1 h2 h3
    · simp [not_lt.mpr h1]
    · simp [h2, not_le.mp h1]
    · simp [h2]
    · simp [h2]
  · unfold confidence
    split_ifs with h1 h2 h3
    · simp [not_lt.mpr (le_trans (by norm_num : (75 : ℚ) ≤ 85) h1)]
    · simp [not_lt.mpr h2]
    · simp [h3, not_le.mp h2]
    · simp [h3]
  · unfold confidence
    split_ifs with h1 h2 h3
    · simp [not_lt.mpr (le_trans (by norm_num : (65 : ℚ) ≤ 85) h1)]
    · simp [not_lt.mpr (le_trans (by norm_num : (65 : ℚ) ≤ 75) h2)]
    · simp [not_lt.mpr h3]
    · simp [not_le.mp h3]
  · norm_num [confidence]
  · norm_num [confidence]
  · norm_num [confidence]
  · norm_num [confidence]

/-- Claim C4: a candidate from the odds index enters the merged set exactly
when its best decimal odds lie in `[1.5, 6.0]`; `1.5` and `6.0` are
included, `1.49` and `6.01` are excluded. -/
theorem C4_odds_band_filter (pl : List (ℤ × ℚ)) (dl : List (ℤ × DecompEntry))
    (ol : List (ℤ × OddsInfo)) (did : ℤ) (info : OddsInfo) :
    ((did, info) ∈ ol →
      (mkCandidate pl dl did info ∈ mergedOf pl dl ol ↔
        1.5 ≤ info.best_dec ∧ info.best_dec ≤ 6.0)) ∧
    mergedOf [] [] [(1, oddsInfoBand 1.5)] ≠ [] ∧
    mergedOf [] [] [(1, oddsInfoBand 6.0)] ≠ [] ∧
    mergedOf [] [] [(1, oddsInfoBand 1.49)] = [] ∧
    mergedOf [] [] [(1, oddsInfoBand 6.01)] = [] := by
  refine ⟨?_, ?_, ?_, ?_, ?_⟩
  · intro hmem
    constructor
    · intro hc
      have hb := mem_mergedOf_admissible hc
      rwa [mkCandidate_best_odds_dec] at hb
    · intro hband
      exact mem_mergedOf_of_mem hmem (by push_neg; exact hband)
  · norm_num [mergedOf, oddsInfoBand]
  · norm_num [mergedOf, oddsInfoBand]
  · norm_num [mergedOf, oddsInfoBand]
  · norm_num [mergedOf, oddsInfoBand]

/-- Witness for C4: an in-band candidate is merged. -/
theorem C4_witness :
    mkCandidate [] [] 1 (oddsInfoBand 2) ∈ mergedOf [] [] [(1, oddsInfoBand 2)] :=
  ((C4_odds_band_filter [] [] [(1, oddsInfoBand 2)] 1 (oddsInfoBand 2)).1
    (List.mem_singleton.mpr rfl)).mpr (by norm_num [oddsInfoBand])

/-- Claim C7: when the merged candidate set is empty, the endpoint returns
the upstream (or empty) event name with an empty pick list, short-circuiting
before normalization and scoring. -/
theorem C7_empty_short_circuit (pd : PredictionsDoc) (od : OddsDoc) (dd : DecompsDoc)
    (h : mergedOf (predLookupOf pd) (decompsLookupOf dd) (oddsLookupOf od) = []) :
    getTop20Picks pd od dd =
      { event_name := pyOrStr (od.event_name.getD "") (pd.event_name.getD "")
        picks := [] } := by
  simp only [getTop20Picks]
  rw [if_pos h]

/-- Witness for C7 at the all-empty documents. -/
theorem C7_witness :
    getTop20Picks emptyPredictionsDoc emptyOddsDoc emptyDecompsDoc =
      { event_name := pyOrStr (emptyOddsDoc.event_name.getD "")
          (emptyPredictionsDoc.event_name.getD "")
        picks := [] } :=
  C7_empty_short_circuit _ _ _ rfl

/-- Claim C1: for every candidate of a non-empty candidate set, the six
factors are the one-decimal-rounded min-max normalizations of the raw
factor lists over the whole set, and the Floor Score is the fixed-weight
sum model*0.269 + course*0.133 + short*0.059 + approach*0.056 + form*0.150
+ overall*0.333 of those factors (the emitted floor score being its
one-decimal rounding). -/
theorem C1_floor_score_weighted_sum (pd : PredictionsDoc) (od : OddsDoc) (dd : DecompsDoc) :
    let M := mergedOf (predLookupOf pd) (decompsLookupOf dd) (oddsLookupOf od)
    (M.map (fun c => (factorsOf M c).model)
      = (normalize (M.map (fun c => c.dg_top20_prob))).map pyRound1) ∧
    (M.map (fun c => (factorsOf M c).course)
      = (normalize (M.map (fun c => c.course_fit))).map pyRound1) ∧
    (M.map (fun c => (factorsOf M c).short_game)
      = (normalize (M.map (fun c => c.sg_short_game))).map pyRound1) ∧
    (M.map (fun c => (factorsOf M c).approach)
      = (normalize (M.map (fun c => c.sg_approach))).map pyRound1) ∧
    (M.map (fun c => (factorsOf M c).form)
      = (normalize (M.map (fun c => c.sg_total_predicted / max c.std_deviation 0.5))).map pyRound1) ∧
    (M.map (fun c => (factorsOf M c).overall)
      = (normalize (M.map (fun c => c.sg_total_predicted))).map pyRound1) ∧
    ∀ p ∈ (getTop20Picks pd od dd).picks,
      p.floor_score = pyRound1 (p.factors.model * 0.269 + p.factors.course * 0.133
        + p.factors.short_game * 0.059 + p.factors.approach * 0.056
        + p.factors.form * 0.150 + p.factors.overall * 0.333) := by
  intro M
  refine ⟨map_pyRound1_normalize M _, map_pyRound1_normalize M _, map_pyRound1_normalize M _,
    map_pyRound1_normalize M _, map_pyRound1_normalize M _, map_pyRound1_normalize M _, ?_⟩
  intro p hp
  obtain ⟨r, hr, rfl⟩ := mem_picks_exists hp
  rfl

/-- Witness for C1: on a concrete two-candidate run, every output pick's
floor score is the rounded fixed-weight factor sum. -/
theorem C1_witness :
    (getTop20Picks emptyPredictionsDoc oddsDocA emptyDecompsDoc).picks.length = 2 ∧
    ((getTop20Picks emptyPredictionsDoc oddsDocA emptyDecompsDoc).picks.all
      (fun p => decide (p.floor_score = pyRound1 (p.factors.model * 0.269
        + p.factors.course * 0.133 + p.factors.short_game * 0.059
        + p.factors.approach * 0.056 + p.factors.form * 0.150
        + p.factors.overall * 0.333)))) = true := by
  constructor
  · norm_num +decide [getTop20Picks, emptyPredictionsDoc, emptyDecompsDoc, oddsDocA,
      predLookupOf, oddsLookupOf, decompsLookupOf, oddsStep, scanBooks, SPORTSBOOKS,
      scanStep, dictGetStr, dictInsert, dictGet, dec_to_american, pyRound, mergedOf,
      mkCandidate, pyOr, pyOrStr, scoredOf, pickOf, factorsOf, floorScoreOf, normVal,
      listMin, listMax, pyRound1, pyRoundN, confidence, sortPicks, List.insertionSort,
      List.orderedInsert, predStep, decompStep]
  · rw [List.all_eq_true]
    intro p hp
    exact decide_eq_true
      ((C1_floor_score_weighted_sum emptyPredictionsDoc oddsDocA
        emptyDecompsDoc).2.2.2.2.2.2 p hp)

/-- Claim C10: the six weights sum to one (an all-100 factor set scores
exactly 100), and every emitted pick's floor score and factors lie in
the closed interval from 0 to 100. -/
theorem C10_floor_score_range (pd : PredictionsDoc) (od : OddsDoc) (dd : DecompsDoc) :
    floorScoreOf (Factors.mk 100 100 100 100 100 100) = 100 ∧
    ∀ p ∈ (getTop20Picks pd od dd).picks,
      (0 ≤ p.floor_score ∧ p.floor_score ≤ 100) ∧
      (0 ≤ p.factors.model ∧ p.factors.model ≤ 100) ∧
      (0 ≤ p.factors.course ∧ p.factors.course ≤ 100) ∧
      (0 ≤ p.factors.short_game ∧ p.factors.short_game ≤ 100) ∧
      (0 ≤ p.factors.approach ∧ p.factors.approach ≤ 100) ∧
      (0 ≤ p.factors.form ∧ p.factors.form ≤ 100) ∧
      (0 ≤ p.factors.overall ∧ p.factors.overall ≤ 100) := by
  refine ⟨by norm_num [floorScoreOf], ?_⟩
  intro p hp
  obtain ⟨r, hr, rfl⟩ := mem_picks_exists hp
  obtain ⟨hm, hc, hs, ha, hf, ho⟩ := factorsOf_bounds hr
  have hfs := floorScoreOf_bounds hm hc hs ha hf ho
  have hp1 := pyRound1_bounds hfs.1 hfs.2
  rw [pickOf_floor_score, pickOf_factors]
  exact ⟨⟨hp1.1, hp1.2⟩, hm, hc, hs, ha, hf, ho⟩

/-- Witness for C10: bounds hold on a concrete two-candidate run. -/
theorem C10_witness :
    (getTop20Picks emptyPredictionsDoc oddsDocA emptyDecompsDoc).picks.length = 2 ∧
    ((getTop20Picks emptyPredictionsDoc oddsDocA emptyDecompsDoc).picks.all
      (fun p => decide (0 ≤ p.floor_score ∧ p.floor_score ≤ 100))) = true := by
  constructor
  · norm_num +decide [getTop20Picks, emptyPredictionsDoc, emptyDecompsDoc, oddsDocA,
      predLookupOf, oddsLookupOf, decompsLookupOf, oddsStep, scanBooks, SPORTSBOOKS,
      scanStep, dictGetStr, dictInsert, dictGet, dec_to_american, pyRound, mergedOf,
      mkCandidate, pyOr, pyOrStr, scoredOf, pickOf, factorsOf, floorScoreOf, normVal,
      listMin, listMax, pyRound1, pyRoundN, confidence, sortPicks, List.insertionSort,
      List.orderedInsert, predStep, decompStep]
  · rw [List.all_eq_true]
    intro p hp
    exact decide_eq_true
      ((C10_floor_score_range emptyPredictionsDoc oddsDocA emptyDecompsDoc).2 p hp).1

/-- Claim C6: the returned pick list has at most 30 entries, is sorted by
floor score in non-increasing order, equals the stable descending sort of
the scored candidates truncated to 30, and the sort preserves the original
order of picks with equal floor scores. -/
theorem C6_output_sorted_bounded (pd : PredictionsDoc) (od : OddsDoc) (dd : DecompsDoc) :
    (getTop20Picks pd od dd).picks.length ≤ 30 ∧
    List.Pairwise (fun a b => b.floor_score ≤ a.floor_score) (getTop20Picks pd od dd).picks ∧
    (mergedOf (predLookupOf pd) (decompsLookupOf dd) (oddsLookupOf od) ≠ [] →
      (getTop20Picks pd od dd).picks =
        (sortPicks (scoredOf (mergedOf (predLookupOf pd) (decompsLookupOf dd)
          (oddsLookupOf od)))).take 30) ∧
    ∀ (l : List Pick) (k : ℚ),
      (sortPicks l).filter (fun p => decide (p.floor_score = k)) =
        l.filter (fun p => decide (p.floor_score = k)) := by
  refine ⟨?_, ?_, ?_, fun l k => sortPicks_filter_key k l⟩
  · simp only [getTop20Picks]
    split_ifs with h
    · simp
    · rw [List.length_take]
      exact min_le_left _ _
  · simp only [getTop20Picks]
    split_ifs with h
    · simp
    · exact List.Pairwise.sublist (List.take_sublist 30 _) (sortPicks_sorted _)
  · intro h
    simp only [getTop20Picks]
    rw [if_neg h]

/-- Witness for C6: the truncated-sort equation on a concrete run. -/
theorem C6_witness :
    (getTop20Picks emptyPredictionsDoc oddsDocA emptyDecompsDoc).picks =
      (sortPicks (scoredOf (mergedOf (predLookupOf emptyPredictionsDoc)
        (decompsLookupOf emptyDecompsDoc) (oddsLookupOf oddsDocA)))).take 30 :=
  (C6_output_sorted_bounded emptyPredictionsDoc oddsDocA emptyDecompsDoc).2.2.1
    (by norm_num +decide [mergedOf, predLookupOf, decompsLookupOf, oddsLookupOf,
      oddsDocA, emptyPredictionsDoc, emptyDecompsDoc, oddsStep, scanBooks, scanStep,
      SPORTSBOOKS, dictGetStr, dictInsert, dec_to_american, pyRound, mkCandidate,
      pyOr, dictGet])

/-- Claim C8 (amended): a failed fetch is absorbed into the empty document,
and when the decompositions fetch fails, every admissible odds-index entry
still yields a scored pick with course-fit, short-game and approach all 0;
that pick reaches the returned list whenever at most 30 candidates are
admissible (the top-30 truncation can drop it otherwise). -/
theorem C8_decomp_failure_resilience (pr : Except String PredictionsDoc)
    (od : Except String OddsDoc) (e : String) :
    safeFetch emptyPredictionsDoc (Except.error e) = emptyPredictionsDoc ∧
    safeFetch emptyOddsDoc (Except.error e) = emptyOddsDoc ∧
    safeFetch emptyDecompsDoc (Except.error e) = emptyDecompsDoc ∧
    ∀ did info,
      (did, info) ∈ oddsLookupOf (safeFetch emptyOddsDoc od) →
      1.5 ≤ info.best_dec → info.best_dec ≤ 6.0 →
      (∃ p ∈ scoredOf (mergedOf (predLookupOf (safeFetch emptyPredictionsDoc pr))
          (decompsLookupOf emptyDecompsDoc) (oddsLookupOf (safeFetch emptyOddsDoc od))),
        p.dg_id = did ∧ p.course_fit = 0 ∧ p.sg_short_game = 0 ∧ p.sg_approach = 0) ∧
      ((mergedOf (predLookupOf (safeFetch emptyPredictionsDoc pr))
          (decompsLookupOf emptyDecompsDoc)
          (oddsLookupOf (safeFetch emptyOddsDoc od))).length ≤ 30 →
        ∃ p ∈ (top20PicksEndpoint pr od (Except.error e)).picks,
          p.dg_id = did ∧ p.course_fit = 0 ∧ p.sg_short_game = 0 ∧ p.sg_approach = 0) := by
  refine ⟨rfl, rfl, rfl, ?_⟩
  intro did info hmem h15 h60
  have hband : ¬(info.best_dec < 1.5 ∨ 6.0 < info.best_dec) := by
    push_neg
    exact ⟨h15, h60⟩
  set predL := predLookupOf (safeFetch emptyPredictionsDoc pr) with hpredL
  set oddsL := oddsLookupOf (safeFetch emptyOddsDoc od) with hoddsL
  set M := mergedOf predL (decompsLookupOf emptyDecompsDoc) oddsL with hM
  have hc : mkCandidate predL (decompsLookupOf emptyDecompsDoc) did info ∈ M :=
    mem_mergedOf_of_mem hmem hband
  set c := mkCandidate predL (decompsLookupOf emptyDecompsDoc) did info with hcdef
  have hzcf : c.course_fit = 0 := by
    simp [hcdef, mkCandidate, decompsLookupOf, emptyDecompsDoc, dictGet, pyOr]
  have hzsg : c.sg_short_game = 0 := by
    simp [hcdef, mkCandidate, decompsLookupOf, emptyDecompsDoc, dictGet, pyOr]
  have hzap : c.sg_approach = 0 := by
    simp [hcdef, mkCandidate, decompsLookupOf, emptyDecompsDoc, dictGet, pyOr]
  have hfields : (pickOf M c).dg_id = did ∧ (pickOf M c).course_fit = 0 ∧
      (pickOf M c).sg_short_game = 0 ∧ (pickOf M c).sg_approach = 0 := by
    refine ⟨rfl, ?_, ?_, ?_⟩
    · show pyRoundN 4 c.course_fit = 0
      rw [hzcf]
      exact pyRoundN_zero 4
    · show pyRoundN 4 c.sg_short_game = 0
      rw [hzsg]
      exact pyRoundN_zero 4
    · show pyRoundN 4 c.sg_approach = 0
      rw [hzap]
      exact pyRoundN_zero 4
  have hpickmem : pickOf M c ∈ scoredOf M := List.mem_map_of_mem _ hc
  refine ⟨⟨pickOf M c, hpickmem, hfields⟩, ?_⟩
  intro hlen
  have hMne : M ≠ [] := List.ne_nil_of_mem hc
  have hlen2 : (sortPicks (scoredOf M)).length ≤ 30 := by
    rw [(sortPicks_perm (scoredOf M)).length_eq]
    simpa [scoredOf] using hlen
  have htake : (sortPicks (scoredOf M)).take 30 = sortPicks (scoredOf M) :=
    List.take_of_length_le hlen2
  have hmem2 : pickOf M c ∈ sortPicks (scoredOf M) :=
    (sortPicks_perm _).mem_iff.mpr hpickmem
  refine ⟨pickOf M c, ?_, hfields⟩
  have hout : (top20PicksEndpoint pr od (Except.error e)).picks
      = (sortPicks (scoredOf M)).take 30 := picks_eq_of_ne_nil hMne
  rw [hout, htake]
  exact hmem2

set_option maxHeartbeats 16000000 in
set_option maxRecDepth 100000 in
/-- Counterexample to C8 as stated: with 31 admissible candidates and a
failed decompositions fetch, candidate 31 has an admissible odds record
and identity, yet no returned pick carries id 31 - the top-30 truncation
drops it. -/
theorem C8_counterexample :
    (31, oddsInfoWide) ∈ oddsLookupOf oddsDocWide ∧
    1.5 ≤ oddsInfoWide.best_dec ∧ oddsInfoWide.best_dec ≤ 6.0 ∧
    (top20PicksEndpoint (Except.ok emptyPredictionsDoc) (Except.ok oddsDocWide)
      (Except.error "fetch failed")).picks.length = 30 ∧
    ((top20PicksEndpoint (Except.ok emptyPredictionsDoc) (Except.ok oddsDocWide)
      (Except.error "fetch failed")).picks.all (fun p => decide (p.dg_id ≠ 31))) = true := by
  refine ⟨?_, by norm_num [oddsInfoWide], by norm_num [oddsInfoWide], ?_, ?_⟩
  · norm_num +decide [oddsLookupOf, oddsDocWide, wideEntry, oddsInfoWide, oddsStep,
      scanBooks, scanStep, SPORTSBOOKS, dictGetStr, dictInsert, dec_to_american, pyRound]
  · norm_num +decide [top20PicksEndpoint, safeFetch, getTop20Picks, emptyPredictionsDoc,
      emptyDecompsDoc, oddsDocWide, wideEntry, predLookupOf, oddsLookupOf, decompsLookupOf,
      oddsStep, scanBooks, SPORTSBOOKS, scanStep, dictGetStr, dictInsert, dictGet,
      dec_to_american, pyRound, mergedOf, mkCandidate, pyOr, pyOrStr, scoredOf, pickOf,
      factorsOf, floorScoreOf, normVal, listMin, listMax, pyRound1, pyRoundN, confidence,
      sortPicks, List.insertionSort, List.orderedInsert, predStep, decompStep]
  · norm_num +decide [top20PicksEndpoint, safeFetch, getTop20Picks, emptyPredictionsDoc,
      emptyDecompsDoc, oddsDocWide, wideEntry, predLookupOf, oddsLookupOf, decompsLookupOf,
      oddsStep, scanBooks, SPORTSBOOKS, scanStep, dictGetStr, dictInsert, dictGet,
      dec_to_american, pyRound, mergedOf, mkCandidate, pyOr, pyOrStr, scoredOf, pickOf,
      factorsOf, floorScoreOf, normVal, listMin, listMax, pyRound1, pyRoundN, confidence,
      sortPicks, List.insertionSort, List.orderedInsert, predStep, decompStep]

/-- Witness for C8 (amended) on a concrete two-candidate run with a failed
decompositions fetch: an admissible candidate reaches the returned picks
with zeroed skill factors. -/
theorem C8_witness :
    ((top20PicksEndpoint (Except.ok emptyPredictionsDoc) (Except.ok oddsDocA)
      (Except.error "boom")).picks.any (fun p => decide (p.dg_id = 1 ∧ p.course_fit = 0
        ∧ p.sg_short_game = 0 ∧ p.sg_approach = 0))) = true := by
  rw [List.any_eq_true]
  obtain ⟨p, hp, hfields⟩ :=
    ((C8_decomp_failure_resilience (Except.ok emptyPredictionsDoc) (Except.ok oddsDocA)
      "boom").2.2.2 1 oddsInfoA
      (by norm_num +decide [safeFetch, oddsLookupOf, oddsDocA, oddsStep, scanBooks,
        scanStep, SPORTSBOOKS, dictGetStr, dictInsert, dec_to_american, pyRound, oddsInfoA])
      (by norm_num [oddsInfoA]) (by norm_num [oddsInfoA])).2
      (by norm_num +decide [safeFetch, mergedOf, predLookupOf, decompsLookupOf,
        oddsLookupOf, oddsDocA, emptyPredictionsDoc, emptyDecompsDoc, oddsStep, scanBooks,
        scanStep, SPORTSBOOKS, dictGetStr, dictInsert, dictGet, dec_to_american, pyRound,
        mkCandidate, pyOr])
  exact ⟨p, hp, decide_eq_true hfields⟩

/-- Claim C9 (amended): merge defaults - probability 0 with no prediction
record; each skill field 0 and the standard deviation 3.0 when the record
or the field is absent; the total-predicted factor is the final prediction
when present and nonzero, else the baseline prediction when present and
nonzero, else 0 (Python `or` truthiness). -/
theorem C9_merge_defaults (pl : List (ℤ × ℚ)) (dl : List (ℤ × DecompEntry))
    (did : ℤ) (info : OddsInfo) :
    (dictGet pl did = none → (mkCandidate pl dl did info).dg_top20_prob = 0) ∧
    (dictGet dl did = none →
      (mkCandidate pl dl did info).course_fit = 0 ∧
      (mkCandidate pl dl did info).sg_short_game = 0 ∧
      (mkCandidate pl dl did info).sg_approach = 0 ∧
      (mkCandidate pl dl did info).sg_total_predicted = 0 ∧
      (mkCandidate pl dl did info).std_deviation = 3) ∧
    ∀ d, dictGet dl did = some d →
      (d.total_fit_adjustment = none → d.total_course_history_adjustment = none →
        (mkCandidate pl dl did info).course_fit = 0) ∧
      (d.cf_short_comp = none → (mkCandidate pl dl did info).sg_short_game = 0) ∧
      (d.cf_approach_comp = none → (mkCandidate pl dl did info).sg_approach = 0) ∧
      (d.std_deviation = none → (mkCandidate pl dl did info).std_deviation = 3) ∧
      (∀ v, d.final_pred = some v → v ≠ 0 →
        (mkCandidate pl dl did info).sg_total_predicted = v) ∧
      ((d.final_pred = none ∨ d.final_pred = some 0) →
        ∀ w, d.baseline_pred = some w → w ≠ 0 →
          (mkCandidate pl dl did info).sg_total_predicted = w) ∧
      ((d.final_pred = none ∨ d.final_pred = some 0) →
        (d.baseline_pred = none ∨ d.baseline_pred = some 0) →
          (mkCandidate pl dl did info).sg_total_predicted = 0) := by
  refine ⟨?_, ?_, ?_⟩
  · intro h
    simp [mkCandidate, h]
  · intro h
    simp [mkCandidate, h, pyOr]
  · intro d hd
    refine ⟨?_, ?_, ?_, ?_, ?_, ?_, ?_⟩
    · intro h1 h2
      simp [mkCandidate, hd, h1, h2, pyOr]
    · intro h1
      simp [mkCandidate, hd, h1, pyOr]
    · intro h1
      simp [mkCandidate, hd, h1, pyOr]
    · intro h1
      simp [mkCandidate, hd, h1, pyOr]
    · intro v hv hv0
      simp [mkCandidate, hd, hv, pyOr, hv0]
    · intro hfp w hw hw0
      rcases hfp with hfp | hfp <;> simp [mkCandidate, hd, hfp, hw, pyOr, hw0]
    · intro hfp hbp
      rcases hfp with hfp | hfp <;> rcases hbp with hbp | hbp <;>
        simp [mkCandidate, hd, hfp, hbp, pyOr]

/-- Witness for C9 at concrete lookups: absent records give the defaults,
and a zero final prediction with nonzero baseline gives the baseline. -/
theorem C9_witness :
    (mkCandidate [] [] 5 (oddsInfoBand 2)).dg_top20_prob = 0 ∧
    (mkCandidate [] [] 5 (oddsInfoBand 2)).sg_total_predicted = 0 ∧
    (mkCandidate [] [] 5 (oddsInfoBand 2)).std_deviation = 3 ∧
    (mkCandidate [] [(1, decompEntryCE)] 1 (oddsInfoBand 2)).sg_total_predicted = 1/2 :=
  ⟨(C9_merge_defaults [] [] 5 (oddsInfoBand 2)).1 rfl,
   ((C9_merge_defaults [] [] 5 (oddsInfoBand 2)).2.1 rfl).2.2.2.1,
   ((C9_merge_defaults [] [] 5 (oddsInfoBand 2)).2.1 rfl).2.2.2.2,
   ((C9_merge_defaults [] [(1, decompEntryCE)] 1 (oddsInfoBand 2)).2.2 decompEntryCE
      (by simp [dictGet])).2.2.2.2.2.1 (Or.inr rfl) (1/2) rfl (by norm_num)⟩

/-- Counterexample to C9 as stated: a skill record whose final prediction
is present (but zero) with a nonzero baseline - the code takes the
baseline, while the claim dictates the (present) final prediction. -/
theorem C9_counterexample :
    decompEntryCE.final_pred = some 0 ∧
    sgTotalPredictedSpec decompEntryCE = 0 ∧
    (mkCandidate [] [(1, decompEntryCE)] 1 (oddsInfoBand 2)).sg_total_predicted = 1/2 ∧
    (mkCandidate [] [(1, decompEntryCE)] 1 (oddsInfoBand 2)).sg_total_predicted
      ≠ sgTotalPredictedSpec decompEntryCE := by
  refine ⟨rfl, rfl, ?_, ?_⟩
  · norm_num [mkCandidate, decompEntryCE, dictGet, pyOr]
  · norm_num [mkCandidate, decompEntryCE, dictGet, pyOr, sgTotalPredictedSpec]

end SharpGolf
